import Mathlib

/-!
Shallow embedding of the `albers` color-analysis core (the richly featured
variant under `src/albers/`), together with theorems checking the
natural-language specification against it.

Modelling conventions:
* Python floats are modelled as exact rationals (`ℚ`) where the code only
  adds, multiplies, divides and compares, and as real numbers (`ℝ`) where the
  code takes non-integer powers or square roots (`rgb_to_lab`, `delta_e_76`,
  `relative_luminance`, `contrast_ratio`).
* Python `%` on a positive modulus is floor-based (`qmod`).
* Python 3 `round` rounds half to even (`pyRound`); `int(...)` truncates
  toward zero (`pyInt`).
* Python's `int(s, 16)` on a two-character slice is modelled by `pyIntHex2`,
  which agrees with CPython on every pair of ASCII characters (checked
  exhaustively against CPython 3.11 over all 128 × 128 pairs): two hex
  digits, or a single hex digit adjoined by one sign character or one ASCII
  whitespace character.  CPython additionally maps Unicode decimal digits to
  `0`-`9` and Unicode whitespace to a space before parsing (so e.g. the
  fullwidth-digit string parses in Python); that table-driven transform is
  not reproduced here, and the theorems that conclude from a parse FAILURE
  are therefore stated for ASCII input, where the model is exact.
* Python dicts are modelled as association lists built with `dictInsert`
  (insertion order preserved, later bindings overwrite in place); the sparse
  result dict of `classify_emotion` is a structure of `Option` fields, and
  the two possible result shapes of the replacement functions are the two
  constructors of an inductive type.
-/

namespace Albers

/-- Python `a % b` on floats for a positive modulus `b`: floor-based modulo. -/
def qmod (a b : ℚ) : ℚ := a - b * ⌊a / b⌋

/-- Python 3 `round(x)`: round to the nearest integer, ties to even. -/
def pyRound (q : ℚ) : ℤ :=
  let f := ⌊q⌋
  if q - f < 1/2 then f
  else if (1 : ℚ)/2 < q - f then f + 1
  else if f % 2 = 0 then f else f + 1

/-- Python `int(x)` on a number: truncation toward zero. -/
def pyInt (q : ℚ) : ℤ := if q < 0 then ⌈q⌉ else ⌊q⌋

/-- The hex digit characters `0-9a-fA-F`. -/
def hexDigits : List Char := "0123456789abcdefABCDEF".toList

/-- ASCII hex digit test (`0-9a-fA-F`). -/
def isHexDigit (c : Char) : Bool := decide (c ∈ hexDigits)

/-- Numeric value of an ASCII hex digit (junk value 0 off the hex digits). -/
def hexVal (c : Char) : ℤ :=
  if '0' ≤ c ∧ c ≤ '9' then (c.toNat : ℤ) - 48
  else if 'a' ≤ c ∧ c ≤ 'f' then (c.toNat : ℤ) - 87
  else if 'A' ≤ c ∧ c ≤ 'F' then (c.toNat : ℤ) - 55
  else 0

/-- ASCII whitespace accepted (stripped) by Python's integer parser. -/
def pySpace (c : Char) : Bool :=
  c = ' ' || c = '\t' || c = '\n' || c = '\r' || c = '\x0b' || c = '\x0c'

/-- Python `int(s, 16)` on a two-character slice, as used on `h[0:2]`,
`h[2:4]`, `h[4:6]` in `hex_to_rgb`.  `none` models `ValueError`.  Besides
two plain hex digits the CPython parser accepts a single hex digit preceded
by a sign or surrounded by whitespace; this definition agrees with CPython
on every pair of ASCII characters (verified exhaustively over all
128 × 128 pairs against CPython 3.11).  It deliberately omits CPython's
pre-parse transform of Unicode decimal digits (to `0`-`9`) and Unicode
whitespace (to a space) — a Unicode-table lookup whose contents vary with
the interpreter's Unicode version — so on slices containing such non-ASCII
characters it returns `none` where CPython would parse; theorems that
conclude from a `none` here are accordingly scoped to ASCII input. -/
def pyIntHex2 (a b : Char) : Option ℤ :=
  if isHexDigit a ∧ isHexDigit b then some (16 * hexVal a + hexVal b)
  else if a = '+' ∧ isHexDigit b then some (hexVal b)
  else if a = '-' ∧ isHexDigit b then some (-(hexVal b))
  else if pySpace a ∧ isHexDigit b then some (hexVal b)
  else if isHexDigit a ∧ pySpace b then some (hexVal a)
  else none

/-- `hex_color.lstrip("#")` followed by the alpha-stripping step of
`hex_to_rgb`: drop every leading `'#'`, then truncate an 8-character result
to its first 6 characters. -/
def pyStrip6 (s : List Char) : List Char :=
  let h := s.dropWhile (· = '#')
  if h.length = 8 then h.take 6 else h

/-- `hex_to_rgb` on the character list of the input string. -/
def hexToRgbL (s : List Char) : Option (ℤ × ℤ × ℤ) :=
  if s = [] then none
  else
    match pyStrip6 s with
    | [c0, c1, c2, c3, c4, c5] => do
        let r ← pyIntHex2 c0 c1
        let g ← pyIntHex2 c2 c3
        let b ← pyIntHex2 c4 c5
        pure (r, g, b)
    | _ => none

/-- `conversions.hex_to_rgb`: parse a hex color string to `(r, g, b)`,
`none` for invalid input.  Exact for ASCII input; on non-ASCII input it can
return `none` where CPython's Unicode digit/whitespace transform (see
`pyIntHex2`) would let the program parse. -/
def hex_to_rgb (s : String) : Option (ℤ × ℤ × ℤ) := hexToRgbL s.data

/-- Left-pad a character list with `c` to length `w`. -/
def leftPad (c : Char) (w : Nat) (l : List Char) : List Char :=
  List.replicate (w - l.length) c ++ l

/-- Python `f"{n:02x}"` for a natural number: lowercase hex digits,
zero-padded to width 2. -/
def fmt02xN (v : ℕ) : List Char := leftPad '0' 2 (Nat.toDigits 16 v)

/-- Python `f"{n:02x}"` on an integer (a negative value renders as a sign
followed by the magnitude, padded to total width 2). -/
def fmt02x (n : ℤ) : List Char :=
  if n < 0 then '-' :: leftPad '0' 1 (Nat.toDigits 16 n.natAbs)
  else fmt02xN n.toNat

/-- `conversions.rgb_to_hex`: `f"#{r:02x}{g:02x}{b:02x}"`. -/
def rgb_to_hex (r g b : ℤ) : String :=
  ⟨'#' :: (fmt02x r ++ fmt02x g ++ fmt02x b)⟩

/-- Python `str.lower()` (ASCII fragment). -/
def pyLower (s : String) : String := ⟨s.data.map Char.toLower⟩

/-- `colorsys.rgb_to_hls` on exact rationals (inputs scaled to `[0,1]`). -/
def rgb_to_hls (r g b : ℚ) : ℚ × ℚ × ℚ :=
  let maxc := max r (max g b)
  let minc := min r (min g b)
  let sumc := maxc + minc
  let rangec := maxc - minc
  let l := sumc / 2
  if minc = maxc then (0, l, 0)
  else
    let s := if l ≤ 1/2 then rangec / sumc else rangec / (2 - maxc - minc)
    let rc := (maxc - r) / rangec
    let gc := (maxc - g) / rangec
    let bc := (maxc - b) / rangec
    let h := if r = maxc then bc - gc
             else if g = maxc then 2 + rc - bc
             else 4 + gc - rc
    (qmod (h / 6) 1, l, s)

/-- `conversions.rgb_to_hsl`: RGB (0-255) to HSL (H 0-360, S 0-100, L 0-100). -/
def rgb_to_hsl (r g b : ℤ) : ℚ × ℚ × ℚ :=
  let hls := rgb_to_hls ((r : ℚ) / 255) ((g : ℚ) / 255) ((b : ℚ) / 255)
  (hls.1 * 360, hls.2.2 * 100, hls.2.1 * 100)

/-- `colorsys._v` helper of `hls_to_rgb`. -/
def hlsV (m1 m2 hue : ℚ) : ℚ :=
  let h := qmod hue 1
  if h < 1/6 then m1 + (m2 - m1) * h * 6
  else if h < 1/2 then m2
  else if h < 2/3 then m1 + (m2 - m1) * (2/3 - h) * 6
  else m1

/-- `colorsys.hls_to_rgb` on exact rationals. -/
def hls_to_rgb (h l s : ℚ) : ℚ × ℚ × ℚ :=
  if s = 0 then (l, l, l)
  else
    let m2 := if l ≤ 1/2 then l * (1 + s) else l + s - l * s
    let m1 := 2 * l - m2
    (hlsV m1 m2 (h + 1/3), hlsV m1 m2 h, hlsV m1 m2 (h - 1/3))

/-- `conversions.hsl_to_rgb`: HSL (H 0-360, S 0-100, L 0-100) to RGB (0-255),
rounding each channel with Python's `round`. -/
def hsl_to_rgb (h s l : ℚ) : ℤ × ℤ × ℤ :=
  let rgb := hls_to_rgb (h / 360) (l / 100) (s / 100)
  (pyRound (rgb.1 * 255), pyRound (rgb.2.1 * 255), pyRound (rgb.2.2 * 255))

/-- `conversions.rotate_hue`: rotate hue by `degrees`, wrapping around 360. -/
def rotate_hue (h degrees : ℚ) : ℚ := qmod (h + degrees) 360

/-- `conversions.generate_harmony_colors`: generate harmony colors based on
type (the list-append structure mirrors the five sequential `if` blocks). -/
def generate_harmony_colors (h s l : ℚ) (harmony_type : String) :
    List (ℚ × ℚ × ℚ) :=
  (if harmony_type = "complementary" ∨ harmony_type = "all" then
    [(rotate_hue h 180, s, l)] else []) ++
  (if harmony_type = "analogous" ∨ harmony_type = "all" then
    [(rotate_hue h (-30), s, l), (rotate_hue h 30, s, l)] else []) ++
  (if harmony_type = "triadic" ∨ harmony_type = "all" then
    [(rotate_hue h 120, s, l), (rotate_hue h 240, s, l)] else []) ++
  (if harmony_type = "split" ∨ harmony_type = "all" then
    [(rotate_hue h 150, s, l), (rotate_hue h 210, s, l)] else []) ++
  (if harmony_type = "tetradic" ∨ harmony_type = "all" then
    [(rotate_hue h 90, s, l), (rotate_hue h 180, s, l),
     (rotate_hue h 270, s, l)] else [])

/-- `conversions.color_temperature`: classify color temperature from HSL hue. -/
def color_temperature (h s : ℚ) : String :=
  if s < 5 then "neutral"
  else if (0 ≤ h ∧ h < 60) ∨ (300 ≤ h ∧ h ≤ 360) then "warm"
  else if 150 ≤ h ∧ h < 270 then "cool"
  else "transitional"

/-- The local `linearize` of `rgb_to_lab` and the identical local `lin` of
`relative_luminance`: the piecewise sRGB transfer function applied to a
channel value scaled by 255. -/
noncomputable def srgbLin (v : ℤ) : ℝ :=
  let c : ℚ := (v : ℚ) / 255
  if c ≤ 0.04045 then ((c / 12.92 : ℚ) : ℝ)
  else (((c + 0.055) / 1.055 : ℚ) : ℝ) ^ (2.4 : ℝ)

/-- The local `f` of `rgb_to_lab`: the XYZ-to-Lab piecewise function
(`t ** (1/3)` above the 0.008856 threshold, linear below). -/
noncomputable def labF (t : ℝ) : ℝ :=
  if 0.008856 < t then t ^ ((1 : ℝ) / 3) else 7.787 * t + 16 / 116

/-- `conversions.rgb_to_lab`: RGB to CIELAB. -/
noncomputable def rgb_to_lab (r g b : ℤ) : ℝ × ℝ × ℝ :=
  let rl := srgbLin r
  let gl := srgbLin g
  let bl := srgbLin b
  let x := rl * 0.4124564 + gl * 0.3575761 + bl * 0.1804375
  let y := rl * 0.2126729 + gl * 0.7151522 + bl * 0.0721750
  let z := rl * 0.0193339 + gl * 0.1191920 + bl * 0.9503041
  let fx := labF (x / 0.95047)
  let fy := labF (y / 1.0)
  let fz := labF (z / 1.08883)
  (116 * fy - 16, 500 * (fx - fy), 200 * (fy - fz))

/-- `conversions.delta_e_76`: CIE76 color difference, Euclidean in Lab. -/
noncomputable def delta_e_76 (lab1 lab2 : ℝ × ℝ × ℝ) : ℝ :=
  Real.sqrt ((lab1.1 - lab2.1) ^ 2 + (lab1.2.1 - lab2.2.1) ^ 2 +
    (lab1.2.2 - lab2.2.2) ^ 2)

/-- `conversions.relative_luminance`: WCAG relative luminance (with the
source's literal weights 0.2126 / 0.7151 / 0.0722). -/
noncomputable def relative_luminance (r g b : ℤ) : ℝ :=
  0.2126 * srgbLin r + 0.7151 * srgbLin g + 0.0722 * srgbLin b

/-- `conversions.contrast_ratio`: WCAG contrast ratio between two RGB
tuples. -/
noncomputable def contrast_ratio (rgb1 rgb2 : ℤ × ℤ × ℤ) : ℝ :=
  let l1 := relative_luminance rgb1.1 rgb1.2.1 rgb1.2.2
  let l2 := relative_luminance rgb2.1 rgb2.2.1 rgb2.2.2
  (max l1 l2 + 0.05) / (min l1 l2 + 0.05)

/-! ### Psychology (`psychology.py`) -/

/-- `psychology.EMOTIONAL_MAP`, in dict insertion order. -/
def EMOTIONAL_MAP : List ((ℚ × ℚ) × (String × String × String)) :=
  [((0, 30), ("energy, urgency, passion", "high", "mixed")),
   ((30, 60), ("warmth, comfort, optimism", "medium", "positive")),
   ((60, 90), ("clarity, attention, caution", "medium-high", "mixed")),
   ((90, 150), ("growth, balance, freshness", "low-medium", "positive")),
   ((150, 210), ("calm, trust, stability", "low", "positive")),
   ((210, 270), ("depth, introspection, focus", "low-medium", "neutral")),
   ((270, 330), ("creativity, luxury, mystery", "medium", "mixed")),
   ((330, 360), ("energy, urgency, passion", "high", "mixed"))]

/-- `psychology.LIGHTNESS_RESPONSE`, in dict insertion order. -/
def LIGHTNESS_RESPONSE : List (String × (ℚ × ℚ × String)) :=
  [("very_dark", (0, 15,
     "immersion, focus, reduced eye strain in dim environments")),
   ("dark", (15, 30, "concentration, professionalism, modern aesthetic")),
   ("medium_dark", (30, 45, "balance, readability, moderate contrast")),
   ("medium", (45, 60, "neutrality, versatility, comfortable extended use")),
   ("medium_light", (60, 75,
     "openness, approachability, paper-like comfort")),
   ("light", (75, 90, "clarity, spaciousness, traditional document feel")),
   ("very_light", (90, 100, "airiness, minimalism, clean aesthetic"))]

/-- `psychology.SATURATION_RESPONSE`, in dict insertion order. -/
def SATURATION_RESPONSE : List (String × (ℚ × ℚ × String)) :=
  [("desaturated", (0, 15,
     "calm, professional, reduces visual fatigue over time")),
   ("muted", (15, 35,
     "sophisticated, natural, non-distracting — ideal for long coding sessions")),
   ("moderate", (35, 55, "balanced, engaging without overwhelming")),
   ("saturated", (55, 75,
     "vibrant, attention-grabbing — best reserved for accents")),
   ("vivid", (75, 100, "intense, energetic — may cause fatigue if overused"))]

/-- First-match-wins lookup in `EMOTIONAL_MAP` (the `for`/`break` loop). -/
def hueLookup (h : ℚ) : List ((ℚ × ℚ) × (String × String × String)) →
    Option (String × String × String)
  | [] => none
  | ((hmin, hmax), v) :: rest =>
      if hmin ≤ h ∧ h < hmax then some v else hueLookup h rest

/-- First-match-wins lookup in a band table keyed by name (the lightness and
saturation `for`/`break` loops). -/
def bandLookup (x : ℚ) : List (String × (ℚ × ℚ × String)) →
    Option (String × String)
  | [] => none
  | (name, (lo, hi, desc)) :: rest =>
      if lo ≤ x ∧ x < hi then some (name, desc) else bandLookup x rest

/-- The sparse result dict of `classify_emotion`: absent keys are `none`;
`temperature` is always set. -/
structure EmotionResult where
  hue_emotion : Option String
  arousal : Option String
  valence : Option String
  temperature : String
  lightness_class : Option String
  lightness_response : Option String
  saturation_class : Option String
  saturation_response : Option String
  deriving Repr, DecidableEq

/-- `psychology.classify_emotion`: emotional/psychological associations for
an HSL color. -/
def classify_emotion (h s lightness : ℚ) : EmotionResult :=
  let hue := if 5 ≤ s then hueLookup h EMOTIONAL_MAP else none
  let li := bandLookup lightness LIGHTNESS_RESPONSE
  let sa := bandLookup s SATURATION_RESPONSE
  { hue_emotion := hue.map (·.1)
    arousal := hue.map (·.2.1)
    valence := hue.map (·.2.2)
    temperature := color_temperature h s
    lightness_class := li.map (·.1)
    lightness_response := li.map (·.2)
    saturation_class := sa.map (·.1)
    saturation_response := sa.map (·.2) }

/-! ### Harmony analysis (`harmony.py`) -/

/-- One entry of the `relationships` list: `(kind, h1, h2, diff)`. -/
structure Rel where
  kind : String
  h1 : ℤ
  h2 : ℤ
  diff : ℤ
  deriving Repr, DecidableEq

/-- The result dict of `analyze_harmony`: either exactly
`{"type": "monochromatic"}` or the four-key analysis dict. -/
inductive HarmonyResult where
  | mono : HarmonyResult
  | analysis (distinct_hues : ℕ) (hue_values : List ℤ) (hue_range : ℤ)
      (relationships : List Rel) : HarmonyResult
  deriving Repr, DecidableEq

/-- Maximum of an integer list (junk value 0 for `[]`; `analyze_harmony`
only evaluates it on nonempty lists). -/
def listMax : List ℤ → ℤ
  | [] => 0
  | a :: t => t.foldl max a

/-- Minimum of an integer list (junk value 0 for `[]`). -/
def listMin : List ℤ → ℤ
  | [] => 0
  | a :: t => t.foldl min a

/-- The body of the pair loop of `analyze_harmony`: compute the folded
difference and classify it through the five `if`/`elif` bands; `none` when
no band matches (the pair is simply not appended). -/
def pairRel (h1 h2 : ℤ) : Option Rel :=
  let d0 := |h1 - h2|
  let d := if 180 < d0 then 360 - d0 else d0
  if 165 ≤ d ∧ d ≤ 195 then some ⟨"complementary", h1, h2, d⟩
  else if 25 ≤ d ∧ d ≤ 45 then some ⟨"analogous", h1, h2, d⟩
  else if 115 ≤ d ∧ d ≤ 135 then some ⟨"triadic-ish", h1, h2, d⟩
  else if 55 ≤ d ∧ d ≤ 75 then some ⟨"split-complementary element", h1, h2, d⟩
  else if 85 ≤ d ∧ d ≤ 95 then some ⟨"square/tetradic element", h1, h2, d⟩
  else none

/-- The nested `for` loops of `analyze_harmony`: each element paired with
every later element, in order. -/
def relLoop : List ℤ → List Rel
  | [] => []
  | h1 :: rest => rest.filterMap (fun h2 => pairRel h1 h2) ++ relLoop rest

/-- Python `sorted(set(...))`: the distinct values, ascending. -/
def pySortedSet (l : List ℤ) : List ℤ := l.dedup.insertionSort (· ≤ ·)

/-- `harmony.analyze_harmony`: detect color harmony relationships among a
set of hues (the `if h is not None` filter is vacuous here since the input
is modelled as a list of numbers). -/
def analyze_harmony (hues : List ℚ) : HarmonyResult :=
  let hs := pySortedSet (hues.map pyRound)
  if hs.length < 2 then .mono
  else .analysis hs.length hs (listMax hs - listMin hs) (relLoop hs)

/-! ### Theme loading (`theme_loader.py`) -/

/-- The enriched color record built by `extract_colors` and
`extract_syntax_colors`. -/
structure ColorInfo where
  hex : String
  rgb : ℤ × ℤ × ℤ
  hsl : ℚ × ℚ × ℚ
  lab : ℝ × ℝ × ℝ

/-- Python dict assignment `d[k] = v` on an association list: overwrite in
place if the key exists, else append (insertion order preserved). -/
def dictInsert {α : Type} (k : String) (v : α) (l : List (String × α)) :
    List (String × α) :=
  if l.any (fun p => p.1 = k) then
    l.map (fun p => if p.1 = k then (k, v) else p)
  else l ++ [(k, v)]

/-- The `scope` field of a `tokenColors` entry: absent, a string, or a list
of strings. -/
inductive ScopeField where
  | absent : ScopeField
  | str (s : String) : ScopeField
  | list (l : List String) : ScopeField

/-- One entry of a theme's `tokenColors` sequence (only the fields the core
reads: `scope` and `settings.foreground`). -/
structure TokenEntry where
  scope : ScopeField
  foreground : Option String

/-- A `semanticTokenColors` value: a string or some other JSON value. -/
inductive SemVal where
  | str (s : String) : SemVal
  | other : SemVal

/-- A parsed theme document, restricted to the fields the core reads.
`colors` and `semanticTokenColors` model Python dicts (unique keys,
insertion order); an absent mapping is the empty list, matching
`theme.get(..., {})`. -/
structure Theme where
  colors : List (String × String)
  tokenColors : List TokenEntry
  semanticTokenColors : List (String × SemVal)

/-- The `[s]`-wrapping of a string-valued `scope`
(`if isinstance(scopes, str): scopes = [scopes]`). -/
def scopeList : ScopeField → List String
  | .absent => []
  | .str s => [s]
  | .list l => l

/-- `theme_loader.extract_colors`: all UI colors as enriched records. -/
noncomputable def extract_colors (theme : Theme) : List (String × ColorInfo) :=
  theme.colors.foldl
    (fun acc kv =>
      match hex_to_rgb kv.2 with
      | some rgb =>
          dictInsert kv.1
            ⟨kv.2, rgb, rgb_to_hsl rgb.1 rgb.2.1 rgb.2.2,
              rgb_to_lab rgb.1 rgb.2.1 rgb.2.2⟩ acc
      | none => acc)
    []

/-- `theme_loader.extract_syntax_colors`: token-scope colors (for entries
with a truthy `foreground` that parses) then `semantic:`-prefixed entries. -/
noncomputable def extract_scope_colors (theme : Theme) :
    List (String × ColorInfo) :=
  let fromTokens := theme.tokenColors.foldl
    (fun acc t =>
      match t.foreground with
      | some fg =>
          if fg = "" then acc
          else
            match hex_to_rgb fg with
            | some rgb =>
                (scopeList t.scope).foldl
                  (fun acc2 scope =>
                    dictInsert scope
                      ⟨fg, rgb, rgb_to_hsl rgb.1 rgb.2.1 rgb.2.2,
                        rgb_to_lab rgb.1 rgb.2.1 rgb.2.2⟩ acc2)
                  acc
            | none => acc
      | none => acc)
    []
  theme.semanticTokenColors.foldl
    (fun acc kv =>
      match kv.2 with
      | .str v =>
          match hex_to_rgb v with
          | some rgb =>
              dictInsert ("semantic:" ++ kv.1)
                ⟨v, rgb, rgb_to_hsl rgb.1 rgb.2.1 rgb.2.2,
                  rgb_to_lab rgb.1 rgb.2.1 rgb.2.2⟩ acc
          | none => acc
      | .other => acc)
    fromTokens

/-! ### Replacement engine (`replacement.py`) -/

/-- One entry of the `contrast_changes` list. -/
structure ContrastChange where
  context : String
  old_contrast : ℝ
  new_contrast : ℝ
  change : ℝ

/-- The result dict of `compute_replacement_impact`: either the error dict
`{"error": ...}` (carrying nothing else) or the five-key analysis dict. -/
inductive ImpactResult where
  | err (msg : String) : ImpactResult
  | ok (affected_ui : List String) (affected_scopes : List String)
      (contrast_changes : List ContrastChange)
      (recommendations : List String) (delta_e : ℝ) : ImpactResult

/-- The hex-match predicate of the `affected_ui`/`affected_syntax`
comprehensions: `info["hex"].lower()[:7] == old_color.lower()[:7]`. -/
def hexMatches (stored old_color : String) : Bool :=
  (pyLower stored).data.take 7 = (pyLower old_color).data.take 7

open Classical in
/-- `replacement.compute_replacement_impact`: the impact of replacing one
color with another. -/
noncomputable def compute_replacement_impact (theme : Theme)
    (old_color new_color : String) : ImpactResult :=
  match hex_to_rgb old_color, hex_to_rgb new_color with
  | some old_rgb, some new_rgb =>
      let old_hsl := rgb_to_hsl old_rgb.1 old_rgb.2.1 old_rgb.2.2
      let new_hsl := rgb_to_hsl new_rgb.1 new_rgb.2.1 new_rgb.2.2
      let old_lab := rgb_to_lab old_rgb.1 old_rgb.2.1 old_rgb.2.2
      let new_lab := rgb_to_lab new_rgb.1 new_rgb.2.1 new_rgb.2.2
      let delta_e := delta_e_76 old_lab new_lab
      let ui_colors := extract_colors theme
      let scope_colors := extract_scope_colors theme
      let affected_ui :=
        (ui_colors.filter (fun p => hexMatches p.2.hex old_color)).map (·.1)
      let affected_scopes :=
        (scope_colors.filter (fun p => hexMatches p.2.hex old_color)).map (·.1)
      let bg_hex :=
        ((theme.colors.find? (fun p => p.1 = "editor.background")).map
          (·.2)).getD "#000000"
      let bg := hex_to_rgb bg_hex
      let contrast_changes :=
        match bg with
        | some bg_rgb =>
            let old_cr := contrast_ratio old_rgb bg_rgb
            let new_cr := contrast_ratio new_rgb bg_rgb
            [⟨"editor.background", old_cr, new_cr, new_cr - old_cr⟩]
        | none => []
      let recs1 :=
        if delta_e < 2.3 then
          ["✓ Change is barely perceptible - safe replacement"]
        else if delta_e < 10 then
          ["⚠ Moderate change - review affected elements"]
        else ["⚠⚠ Significant change - thorough review recommended"]
      let recs2 :=
        match bg with
        | some bg_rgb =>
            let old_cr := contrast_ratio old_rgb bg_rgb
            let new_cr := contrast_ratio new_rgb bg_rgb
            (if old_cr < 4.5 ∧ 4.5 ≤ new_cr then
              ["✓ Improves WCAG AA compliance for text"]
            else if 4.5 ≤ old_cr ∧ new_cr < 4.5 then
              ["⚠ Reduces contrast below WCAG AA standard"]
            else []) ++
            (if new_cr < 3.0 then
              ["⚠ New color may have visibility issues"] else [])
        | none => []
      let old_temp := if old_hsl.1 < 60 ∨ 300 < old_hsl.1 then "warm" else "cool"
      let new_temp := if new_hsl.1 < 60 ∨ 300 < new_hsl.1 then "warm" else "cool"
      let recs3 :=
        if old_temp ≠ new_temp then
          ["⚠ Temperature shift: " ++ old_temp ++ " → " ++ new_temp]
        else []
      .ok affected_ui affected_scopes contrast_changes
        (recs1 ++ recs2 ++ recs3) delta_e
  | _, _ => .err "Invalid color"

/-- One entry of the `suggestions` list of `compute_harmony_suggestions`. -/
structure Suggestion where
  hex : String
  hsl : ℚ × ℚ × ℚ
  delta_e : ℝ
  rotation : ℚ

/-- One entry of the `variations` list. -/
structure Variation where
  name : String
  hex : String

/-- The result dict of `compute_harmony_suggestions`: either the error dict
`{"error": ...}` or the `base`/`suggestions`/`variations` dict. -/
inductive SuggestResult where
  | err (msg : String) : SuggestResult
  | ok (base_hex : String) (base_hsl : ℚ × ℚ × ℚ)
      (suggestions : List Suggestion) (variations : List Variation) :
      SuggestResult

/-- The `suggestions` list of a result (empty for the error dict). -/
def SuggestResult.suggestionList : SuggestResult → List Suggestion
  | .err _ => []
  | .ok _ _ s _ => s

/-- The `variations` list of a result (empty for the error dict). -/
def SuggestResult.variationList : SuggestResult → List Variation
  | .err _ => []
  | .ok _ _ _ v => v

/-- Whether a result is the error dict. -/
def SuggestResult.isErr : SuggestResult → Bool
  | .err _ => true
  | .ok _ _ _ _ => false

/-- `replacement.compute_harmony_suggestions`: harmony-based color
suggestions for a base hex color. -/
noncomputable def compute_harmony_suggestions (base_color : String)
    (harmony_type : String) : SuggestResult :=
  match hex_to_rgb base_color with
  | none => .err "Invalid base color"
  | some base_rgb =>
      let base_hsl := rgb_to_hsl base_rgb.1 base_rgb.2.1 base_rgb.2.2
      let base_lab := rgb_to_lab base_rgb.1 base_rgb.2.1 base_rgb.2.2
      let harmonies :=
        generate_harmony_colors base_hsl.1 base_hsl.2.1 base_hsl.2.2
          harmony_type
      let suggestions := harmonies.map (fun hsl =>
        let rgb := hsl_to_rgb hsl.1 hsl.2.1 hsl.2.2
        let hex_color := rgb_to_hex rgb.1 rgb.2.1 rgb.2.2
        let lab := rgb_to_lab rgb.1 rgb.2.1 rgb.2.2
        let de := delta_e_76 base_lab lab
        let rot0 := hsl.1 - base_hsl.1
        let rot :=
          if 180 < rot0 then rot0 - 360
          else if rot0 < -180 then rot0 + 360
          else rot0
        { hex := hex_color, hsl := hsl, delta_e := de, rotation := rot })
      let variations := ([-20, -10, 0, 10, 20] : List ℚ).map (fun l_mod =>
        let l_new := max 0 (min 100 (base_hsl.2.2 + l_mod))
        let rgb := hsl_to_rgb base_hsl.1 base_hsl.2.1 l_new
        { name := "L" ++ toString (pyInt l_new),
          hex := rgb_to_hex rgb.1 rgb.2.1 rgb.2.2 })
      .ok base_color base_hsl suggestions variations

/-! ### Spec-side definitions (written from the claims, for comparison) -/

/-- The minimal circular difference between two hues in degrees (claim C7's
"minimal circular difference"). -/
def minCircDist (a b : ℤ) : ℤ := min |a - b| (360 - |a - b|)

/-- The first matching band of claim C7's band list (165-195 complementary,
25-45 analogous, 115-135 triadic-ish, 55-75 split-element, 85-95
square-element). -/
def bandOf (d : ℤ) : Option String :=
  if 165 ≤ d ∧ d ≤ 195 then some "complementary"
  else if 25 ≤ d ∧ d ≤ 45 then some "analogous"
  else if 115 ≤ d ∧ d ≤ 135 then some "triadic-ish"
  else if 55 ≤ d ∧ d ≤ 75 then some "split-complementary element"
  else if 85 ≤ d ∧ d ≤ 95 then some "square/tetradic element"
  else none

/-- The deduplicated, sorted integer hues `analyze_harmony` works on. -/
def roundedHues (hues : List ℚ) : List ℤ := pySortedSet (hues.map pyRound)

/-- Every ordered pair of an element with a later element of a list (the
index pattern of the nested loops in `analyze_harmony`). -/
def pairList : List ℤ → List (ℤ × ℤ)
  | [] => []
  | a :: t => t.map (fun b => (a, b)) ++ pairList t

/-- All three channels of an RGB triple are in `[0, 255]`. -/
def rgbInRange (c : ℤ × ℤ × ℤ) : Prop :=
  0 ≤ c.1 ∧ c.1 ≤ 255 ∧ 0 ≤ c.2.1 ∧ c.2.1 ≤ 255 ∧ 0 ≤ c.2.2 ∧ c.2.2 ≤ 255

instance (c : ℤ × ℤ × ℤ) : Decidable (rgbInRange c) := by
  unfold rgbInRange; infer_instance

/-- A Lab triple as a point of Euclidean 3-space (used to transfer the
metric-space axioms to `delta_e_76`). -/
noncomputable def toE3 (p : ℝ × ℝ × ℝ) : EuclideanSpace ℝ (Fin 3) :=
  ![p.1, p.2.1, p.2.2]

end Albers

namespace Albers

/-! ### Helper lemmas -/

theorem qmod_nonneg {b : ℚ} (hb : 0 < b) (a : ℚ) : 0 ≤ qmod a b := by
  unfold qmod
  have h1 : ((⌊a / b⌋ : ℚ)) ≤ a / b := Int.floor_le _
  have h2 : b * ((⌊a / b⌋ : ℚ)) ≤ b * (a / b) :=
    mul_le_mul_of_nonneg_left h1 hb.le
  have h3 : b * (a / b) = a := by field_simp
  linarith

theorem qmod_lt {b : ℚ} (hb : 0 < b) (a : ℚ) : qmod a b < b := by
  unfold qmod
  have h1 : a / b < (⌊a / b⌋ : ℚ) + 1 := Int.lt_floor_add_one _
  have h2 : b * (a / b) < b * ((⌊a / b⌋ : ℚ) + 1) :=
    mul_lt_mul_of_pos_left h1 hb
  have h3 : b * (a / b) = a := by field_simp
  have h4 : b * ((⌊a / b⌋ : ℚ) + 1) = b * (⌊a / b⌋ : ℚ) + b := by ring
  linarith

theorem qmod_add_right_inj {d1 d2 : ℚ} (hlt : |d1 - d2| < 360)
    (hne : d1 ≠ d2) (h : ℚ) : qmod (h + d1) 360 ≠ qmod (h + d2) 360 := by
  intro heq
  unfold qmod at heq
  set k1 := ⌊(h + d1) / 360⌋ with hk1
  set k2 := ⌊(h + d2) / 360⌋ with hk2
  have hk : d1 - d2 = 360 * ((k1 : ℚ) - (k2 : ℚ)) := by linarith
  have habs : |(360 : ℚ)| * |((k1 : ℚ) - (k2 : ℚ))| < 360 := by
    rw [← abs_mul, ← hk]; exact hlt
  rw [abs_of_pos (by norm_num : (0 : ℚ) < 360)] at habs
  have hcast : |((k1 : ℚ) - (k2 : ℚ))| = ((|k1 - k2| : ℤ) : ℚ) := by
    push_cast
    rfl
  rw [hcast] at habs
  have hlt1 : ((|k1 - k2| : ℤ) : ℚ) < 1 := by linarith
  have hz : |k1 - k2| < 1 := by exact_mod_cast hlt1
  rw [abs_lt] at hz
  have hkk : k1 = k2 := by omega
  apply hne
  rw [hkk] at hk
  simp at hk
  linarith

theorem delta_e_76_eq_dist (x y : ℝ × ℝ × ℝ) :
    delta_e_76 x y = dist (toE3 x) (toE3 y) := by
  rw [EuclideanSpace.dist_eq]
  unfold delta_e_76 toE3
  congr 1
  rw [Fin.sum_univ_three]
  simp [Real.dist_eq, sq_abs]

theorem toE3_injective : Function.Injective toE3 := by
  intro x y hxy
  have h0 := congrFun hxy 0
  have h1 := congrFun hxy 1
  have h2 := congrFun hxy 2
  simp only [toE3, Matrix.cons_val_zero, Matrix.cons_val_one,
    Matrix.head_cons] at h0 h1 h2
  have h2' : x.2.2 = y.2.2 := by simpa [toE3] using h2
  exact Prod.ext h0 (Prod.ext h1 h2')

theorem srgbLin_zero : srgbLin 0 = 0 := by
  unfold srgbLin
  norm_num

theorem srgbLin_255 : srgbLin 255 = 1 := by
  unfold srgbLin
  rw [if_neg (by norm_num)]
  have h : ((((255 : ℤ) : ℚ) / 255 + 0.055) / 1.055 : ℚ) = 1 := by norm_num
  rw [h]
  simp

theorem labF_zero : labF 0 = 16 / 116 := by
  unfold labF
  rw [if_neg (by norm_num)]
  ring

theorem rgb_to_lab_black : rgb_to_lab 0 0 0 = (0, 0, 0) := by
  unfold rgb_to_lab
  rw [srgbLin_zero]
  norm_num [labF_zero]

theorem rgb_to_lab_white_L : 100 ≤ (rgb_to_lab 255 255 255).1 := by
  have hfy : (1 : ℝ) ≤ labF ((srgbLin 255 * 0.2126729 +
      srgbLin 255 * 0.7151522 + srgbLin 255 * 0.0721750) / 1.0) := by
    rw [srgbLin_255]
    have hy : ((1 : ℝ) * 0.2126729 + 1 * 0.7151522 + 1 * 0.0721750) / 1.0 =
        1.0000001 := by norm_num
    rw [hy]
    unfold labF
    rw [if_pos (by norm_num)]
    calc (1 : ℝ) = 1 ^ ((1 : ℝ) / 3) := (Real.one_rpow _).symm
    _ ≤ (1.0000001 : ℝ) ^ ((1 : ℝ) / 3) :=
        Real.rpow_le_rpow (by norm_num) (by norm_num) (by norm_num)
  show 100 ≤ 116 * labF ((srgbLin 255 * 0.2126729 +
      srgbLin 255 * 0.7151522 + srgbLin 255 * 0.0721750) / 1.0) - 16
  linarith

theorem srgbLin_nonneg {v : ℤ} (hv : 0 ≤ v) : 0 ≤ srgbLin v := by
  have h0 : (0 : ℚ) ≤ (v : ℚ) / 255 := by
    have : (0 : ℚ) ≤ (v : ℚ) := by exact_mod_cast hv
    positivity
  simp only [srgbLin]
  split_ifs with h
  · have : (0 : ℚ) ≤ ((v : ℚ) / 255) / 12.92 := by positivity
    exact_mod_cast this
  · refine Real.rpow_nonneg ?_ _
    have : (0 : ℚ) ≤ ((v : ℚ) / 255 + 0.055) / 1.055 := by positivity
    exact_mod_cast this

theorem relative_luminance_nonneg (r g b : ℤ) (hr : 0 ≤ r) (hg : 0 ≤ g)
    (hb : 0 ≤ b) : 0 ≤ relative_luminance r g b := by
  unfold relative_luminance
  have h1 := srgbLin_nonneg hr
  have h2 := srgbLin_nonneg hg
  have h3 := srgbLin_nonneg hb
  have m1 : (0 : ℝ) ≤ 0.2126 * srgbLin r := by positivity
  have m2 : (0 : ℝ) ≤ 0.7151 * srgbLin g := by positivity
  have m3 : (0 : ℝ) ≤ 0.0722 * srgbLin b := by positivity
  linarith

theorem relative_luminance_white : relative_luminance 255 255 255 = 0.9999 := by
  unfold relative_luminance
  rw [srgbLin_255]
  norm_num

theorem relative_luminance_black : relative_luminance 0 0 0 = 0 := by
  unfold relative_luminance
  rw [srgbLin_zero]
  norm_num

theorem bandLookup_some {x : ℚ} :
    ∀ {tbl : List (String × (ℚ × ℚ × String))} {r},
      bandLookup x tbl = some r →
      ∃ name lo hi desc, (name, (lo, hi, desc)) ∈ tbl ∧ lo ≤ x ∧ x < hi ∧
        r = (name, desc) := by
  intro tbl
  induction tbl with
  | nil => intro r hr; simp [bandLookup] at hr
  | cons e rest ih =>
      intro r hr
      obtain ⟨name, lo, hi, desc⟩ := e
      rw [bandLookup] at hr
      split_ifs at hr with hc
      · exact ⟨name, lo, hi, desc, by simp, hc.1, hc.2, by
          simpa using hr.symm⟩
      · obtain ⟨n, lo', hi', d, hm, h1, h2, h3⟩ := ih hr
        exact ⟨n, lo', hi', d, by simp [hm], h1, h2, h3⟩

theorem hueLookup_some {x : ℚ} :
    ∀ {tbl : List ((ℚ × ℚ) × (String × String × String))} {r},
      hueLookup x tbl = some r →
      ∃ lo hi, ((lo, hi), r) ∈ tbl ∧ lo ≤ x ∧ x < hi := by
  intro tbl
  induction tbl with
  | nil => intro r hr; simp [hueLookup] at hr
  | cons e rest ih =>
      intro r hr
      obtain ⟨⟨lo, hi⟩, v⟩ := e
      rw [hueLookup] at hr
      split_ifs at hr with hc
      · obtain rfl : v = r := by simpa using hr
        exact ⟨lo, hi, by simp, hc.1, hc.2⟩
      · obtain ⟨lo', hi', hm, h1, h2⟩ := ih hr
        exact ⟨lo', hi', by simp [hm], h1, h2⟩

theorem pyIntHex2_hexdigits {a b : Char} (ha : isHexDigit a)
    (hb : isHexDigit b) : pyIntHex2 a b = some (16 * hexVal a + hexVal b) := by
  unfold pyIntHex2
  rw [if_pos ⟨ha, hb⟩]

theorem hex_char_facts : ∀ c ∈ hexDigits,
    0 ≤ hexVal c ∧ hexVal c < 16 ∧
    Nat.digitChar (hexVal c).toNat = Char.toLower c ∧ c ≠ '#' := by decide

set_option maxRecDepth 4096 in
theorem fmt02xN_eq : ∀ n : ℕ, n < 256 →
    fmt02xN n = [Nat.digitChar (n / 16), Nat.digitChar (n % 16)] := by decide

theorem fmt02x_eq {v : ℤ} (h0 : 0 ≤ v) (h1 : v < 256) :
    fmt02x v = [Nat.digitChar (v.toNat / 16), Nat.digitChar (v.toNat % 16)] := by
  unfold fmt02x
  rw [if_neg (not_lt.mpr h0)]
  exact fmt02xN_eq v.toNat (by omega)

theorem relLoop_eq_filterMap : ∀ l : List ℤ,
    relLoop l = (pairList l).filterMap (fun p => pairRel p.1 p.2) := by
  intro l
  induction l with
  | nil => rfl
  | cons a t ih =>
      rw [relLoop, pairList, List.filterMap_append, ih, List.filterMap_map]
      rfl

theorem mem_pairList : ∀ {l : List ℤ}, l.Pairwise (· < ·) →
    ∀ {a b : ℤ}, ((a, b) ∈ pairList l ↔ a ∈ l ∧ b ∈ l ∧ a < b) := by
  intro l
  induction l with
  | nil => intro _ a b; simp [pairList]
  | cons x t ih =>
      intro hp a b
      rw [List.pairwise_cons] at hp
      obtain ⟨hx, ht⟩ := hp
      constructor
      · intro hmem
        rw [pairList, List.mem_append] at hmem
        rcases hmem with hmem | hmem
        · rw [List.mem_map] at hmem
          obtain ⟨c, hc, heq⟩ := hmem
          injection heq with h1 h2
          subst h1
          subst h2
          exact ⟨by simp, by simp [hc], hx _ hc⟩
        · obtain ⟨ha, hbm, hab⟩ := (ih ht).mp hmem
          exact ⟨by simp [ha], by simp [hbm], hab⟩
      · rintro ⟨ha, hbm, hab⟩
        rw [List.mem_cons] at ha hbm
        rw [pairList, List.mem_append]
        rcases ha with rfl | ha
        · rcases hbm with rfl | hbm
          · exact absurd hab (lt_irrefl _)
          · exact Or.inl (List.mem_map.mpr ⟨b, hbm, rfl⟩)
        · rcases hbm with rfl | hbm
          · exact absurd hab (not_lt.mpr (le_of_lt (hx a ha)))
          · exact Or.inr ((ih ht).mpr ⟨ha, hbm, hab⟩)

theorem mem_pySortedSet {x : ℤ} {l : List ℤ} : x ∈ pySortedSet l ↔ x ∈ l := by
  unfold pySortedSet
  rw [(List.perm_insertionSort (· ≤ ·) l.dedup).mem_iff, List.mem_dedup]

theorem pySortedSet_pairwise (l : List ℤ) :
    (pySortedSet l).Pairwise (· < ·) := by
  have hs : (pySortedSet l).Sorted (· ≤ ·) := List.sorted_insertionSort _ _
  have hn : (pySortedSet l).Nodup :=
    (List.perm_insertionSort (· ≤ ·) l.dedup).symm.nodup (List.nodup_dedup l)
  exact (hs.and hn).imp fun hab => lt_of_le_of_ne hab.1 hab.2

theorem pyRound_bounds {q : ℚ} (h0 : 0 ≤ q) (h1 : q < 360) :
    0 ≤ pyRound q ∧ pyRound q ≤ 360 := by
  have hf0 : (0 : ℤ) ≤ ⌊q⌋ := Int.floor_nonneg.mpr h0
  have hf1 : ⌊q⌋ < 360 := by
    rw [Int.floor_lt]
    exact_mod_cast h1
  simp only [pyRound]
  split_ifs <;> omega

theorem minCircDist_le_180 {a b : ℤ} (ha : 0 ≤ a) (ha' : a ≤ 360)
    (hb : 0 ≤ b) (hb' : b ≤ 360) : minCircDist a b ≤ 180 := by
  have habs : |a - b| ≤ 360 := abs_sub_le_iff.mpr ⟨by omega, by omega⟩
  unfold minCircDist
  rcases le_total |a - b| 180 with h | h
  · exact le_trans (min_le_left _ _) h
  · exact le_trans (min_le_right _ _) (by omega)

theorem pairRel_eq_bandOf {a b : ℤ} (ha : 0 ≤ a) (ha' : a ≤ 360)
    (hb : 0 ≤ b) (hb' : b ≤ 360) :
    pairRel a b = (bandOf (minCircDist a b)).map
      (fun k => ⟨k, a, b, minCircDist a b⟩) := by
  have habs0 : 0 ≤ |a - b| := abs_nonneg _
  have habs : |a - b| ≤ 360 := abs_sub_le_iff.mpr ⟨by omega, by omega⟩
  have hd : (if 180 < |a - b| then 360 - |a - b| else |a - b|) =
      minCircDist a b := by
    unfold minCircDist
    split_ifs with h
    · rw [min_eq_right (by linarith)]
    · rw [min_eq_left (by linarith)]
  simp only [pairRel, bandOf]
  rw [hd]
  split_ifs <;> rfl

theorem rgb_to_hls_hue_bounds (r g b : ℚ) :
    0 ≤ (rgb_to_hls r g b).1 ∧ (rgb_to_hls r g b).1 < 1 := by
  simp only [rgb_to_hls]
  split_ifs <;>
    first
      | exact ⟨le_refl 0, by norm_num⟩
      | exact ⟨qmod_nonneg (by norm_num) _, qmod_lt (by norm_num) _⟩

theorem rgb_to_hsl_hue_bounds (r g b : ℤ) :
    0 ≤ (rgb_to_hsl r g b).1 ∧ (rgb_to_hsl r g b).1 < 360 := by
  obtain ⟨h1, h2⟩ :=
    rgb_to_hls_hue_bounds ((r : ℚ) / 255) ((g : ℚ) / 255) ((b : ℚ) / 255)
  simp only [rgb_to_hsl]
  constructor
  · nlinarith
  · nlinarith

theorem generate_mem_bounds {h s l : ℚ} {kind : String} {x : ℚ × ℚ × ℚ}
    (hx : x ∈ generate_harmony_colors h s l kind) :
    (0 ≤ x.1 ∧ x.1 < 360) ∧ x.2.1 = s ∧ x.2.2 = l := by
  have hrot : ∀ d : ℚ, 0 ≤ rotate_hue h d ∧ rotate_hue h d < 360 :=
    fun d => ⟨qmod_nonneg (by norm_num) _, qmod_lt (by norm_num) _⟩
  simp only [generate_harmony_colors, List.mem_append] at hx
  rcases hx with ((((hx | hx) | hx) | hx) | hx)
  · split at hx
    · simp only [List.mem_singleton] at hx
      subst hx
      exact ⟨hrot _, rfl, rfl⟩
    · simp at hx
  · split at hx
    · simp only [List.mem_cons, List.mem_singleton] at hx
      rcases hx with rfl | rfl | hx
      · exact ⟨hrot _, rfl, rfl⟩
      · exact ⟨hrot _, rfl, rfl⟩
      · simp at hx
    · simp at hx
  · split at hx
    · simp only [List.mem_cons, List.mem_singleton] at hx
      rcases hx with rfl | rfl | hx
      · exact ⟨hrot _, rfl, rfl⟩
      · exact ⟨hrot _, rfl, rfl⟩
      · simp at hx
    · simp at hx
  · split at hx
    · simp only [List.mem_cons, List.mem_singleton] at hx
      rcases hx with rfl | rfl | hx
      · exact ⟨hrot _, rfl, rfl⟩
      · exact ⟨hrot _, rfl, rfl⟩
      · simp at hx
    · simp at hx
  · split at hx
    · simp only [List.mem_cons, List.mem_singleton] at hx
      rcases hx with rfl | rfl | rfl | hx
      · exact ⟨hrot _, rfl, rfl⟩
      · exact ⟨hrot _, rfl, rfl⟩
      · exact ⟨hrot _, rfl, rfl⟩
      · simp at hx
    · simp at hx

/-! ### Claim theorems -/

/-- C3 (amended): `hexToRgb` never raises (it is a total function into an
option).  The input is reduced by stripping ALL leading `'#'` characters
(not just one) and truncating an 8-character remainder to 6.  A remainder
whose length is not 6 parses to None for every input string; an ASCII
remainder of length 6 parses to None exactly when a character pair fails
Python's lenient integer parser (which, besides two hex digits, accepts a
sign or whitespace character adjoining a single hex digit — so some
6-character strings containing non-hex-digit characters parse; see the
counterexample); a remainder of 6 hex digits parses (case-insensitively) to
the three channel integers.  The failure half is scoped to ASCII remainders
because CPython additionally maps Unicode decimal digits and Unicode
whitespace to ASCII before parsing, so certain non-ASCII strings (e.g. the
fullwidth digits of `"１２３４５６"`, which CPython parses to
`(18, 52, 86)`) also parse — a further departure from the original claim
that the embedding does not model. -/
theorem hex_to_rgb_parse_characterization :
    (∀ s : String, (pyStrip6 s.data).length ≠ 6 → hex_to_rgb s = none) ∧
    (∀ (s : String) (c0 c1 c2 c3 c4 c5 : Char),
      pyStrip6 s.data = [c0, c1, c2, c3, c4, c5] →
      (∀ c ∈ [c0, c1, c2, c3, c4, c5], c.toNat < 128) →
      pyIntHex2 c0 c1 = none ∨ pyIntHex2 c2 c3 = none ∨
        pyIntHex2 c4 c5 = none →
      hex_to_rgb s = none) ∧
    (∀ (s : String) (c0 c1 c2 c3 c4 c5 : Char),
      pyStrip6 s.data = [c0, c1, c2, c3, c4, c5] →
      isHexDigit c0 → isHexDigit c1 → isHexDigit c2 → isHexDigit c3 →
      isHexDigit c4 → isHexDigit c5 →
      hex_to_rgb s = some (16 * hexVal c0 + hexVal c1,
        16 * hexVal c2 + hexVal c3, 16 * hexVal c4 + hexVal c5)) := by
  refine ⟨?_, ?_, ?_⟩
  · intro s hlen
    unfold hex_to_rgb hexToRgbL
    by_cases he : s.data = []
    · rw [if_pos he]
    · rw [if_neg he]
      rcases hps : pyStrip6 s.data with
        _ | ⟨a, _ | ⟨b, _ | ⟨c, _ | ⟨d, _ | ⟨e, _ | ⟨f, _ | ⟨g, t⟩⟩⟩⟩⟩⟩⟩
      · rfl
      · rfl
      · rfl
      · rfl
      · rfl
      · rfl
      · exact absurd (by rw [hps]; rfl) hlen
      · rfl
  · intro s c0 c1 c2 c3 c4 c5 hps hascii hfail
    have he : s.data ≠ [] := by
      intro h0
      rw [h0] at hps
      simp [pyStrip6] at hps
    unfold hex_to_rgb hexToRgbL
    rw [if_neg he, hps]
    rcases hfail with hf | hf | hf
    · simp [hf]
    · cases hp1 : pyIntHex2 c0 c1 <;> simp [hp1, hf]
    · cases hp1 : pyIntHex2 c0 c1 <;> cases hp2 : pyIntHex2 c2 c3 <;>
        simp [hp1, hp2, hf]
  · intro s c0 c1 c2 c3 c4 c5 hps h0 h1 h2 h3 h4 h5
    have he : s.data ≠ [] := by
      intro hz
      rw [hz] at hps
      simp [pyStrip6] at hps
    unfold hex_to_rgb hexToRgbL
    rw [if_neg he, hps]
    simp [pyIntHex2_hexdigits h0 h1, pyIntHex2_hexdigits h2 h3,
      pyIntHex2_hexdigits h4 h5]

/-- C3 counterexample: `"+1+2+3"` is 6 characters long, has no leading `'#'`
to strip, and contains the non-hex-digit character `'+'`, so the claim says
`hexToRgb` returns None on it; the code returns `(1, 2, 3)` because Python's
`int(s, 16)` accepts a sign before a digit.  Likewise `"##ff0000"` (invalid
per the claim after stripping a single `'#'`) parses, because the code
strips every leading `'#'`. -/
theorem hex_to_rgb_lenient_cex :
    hex_to_rgb "+1+2+3" = some (1, 2, 3) ∧
    isHexDigit '+' = false ∧
    hex_to_rgb "##ff0000" = some (255, 0, 0) := by decide

/-- Witness for C3's amended theorem: a short input, a 6-character non-hex
input, and a valid input. -/
theorem hex_to_rgb_parse_characterization_witness :
    hex_to_rgb "#fff" = none ∧ hex_to_rgb "zzzzzz" = none ∧
    hex_to_rgb "#4d9375" = some (77, 147, 117) :=
  ⟨hex_to_rgb_parse_characterization.1 "#fff" (by decide),
   hex_to_rgb_parse_characterization.2.1 "zzzzzz" 'z' 'z' 'z' 'z' 'z' 'z'
     (by decide) (by decide) (Or.inl (by decide)),
   hex_to_rgb_parse_characterization.2.2 "#4d9375" '4' 'd' '9' '3' '7' '5'
     (by decide) (by decide) (by decide) (by decide) (by decide) (by decide)
     (by decide)⟩

/-- C4: for every `'#'`-prefixed valid 6-digit hex string h, `rgbToHex`
applied to the channels returned by `hexToRgb h` yields `h.lower()`
(zero-padded lowercase 2-digit-per-channel, prefixed with `'#'`): the two
functions are inverse up to case and padding. -/
theorem hex_rgb_roundtrip :
    ∀ cs : List Char, cs.length = 6 → (∀ c ∈ cs, isHexDigit c) →
      ∃ r g b, hex_to_rgb ⟨'#' :: cs⟩ = some (r, g, b) ∧
        rgb_to_hex r g b = pyLower ⟨'#' :: cs⟩ := by
  intro cs hlen hhex
  rcases cs with
    _ | ⟨c0, _ | ⟨c1, _ | ⟨c2, _ | ⟨c3, _ | ⟨c4, _ | ⟨c5, _ | ⟨c6, t⟩⟩⟩⟩⟩⟩⟩ <;>
    simp at hlen
  have hm : ∀ c ∈ [c0, c1, c2, c3, c4, c5], c ∈ hexDigits := fun c hc =>
    of_decide_eq_true (hhex c hc)
  have f0 := hex_char_facts c0 (hm c0 (by simp))
  have f1 := hex_char_facts c1 (hm c1 (by simp))
  have f2 := hex_char_facts c2 (hm c2 (by simp))
  have f3 := hex_char_facts c3 (hm c3 (by simp))
  have f4 := hex_char_facts c4 (hm c4 (by simp))
  have f5 := hex_char_facts c5 (hm c5 (by simp))
  have hstrip : pyStrip6 ('#' :: [c0, c1, c2, c3, c4, c5]) =
      [c0, c1, c2, c3, c4, c5] := by
    unfold pyStrip6
    rw [List.dropWhile_cons_of_pos (by decide),
      List.dropWhile_cons_of_neg (by simpa using f0.2.2.2)]
    rfl
  refine ⟨16 * hexVal c0 + hexVal c1, 16 * hexVal c2 + hexVal c3,
    16 * hexVal c4 + hexVal c5, ?_, ?_⟩
  · unfold hex_to_rgb hexToRgbL
    rw [if_neg (by simp)]
    show (match pyStrip6 ('#' :: [c0, c1, c2, c3, c4, c5]) with
      | [c0, c1, c2, c3, c4, c5] => do
          let r ← pyIntHex2 c0 c1
          let g ← pyIntHex2 c2 c3
          let b ← pyIntHex2 c4 c5
          pure (r, g, b)
      | _ => none) = _
    rw [hstrip]
    simp [pyIntHex2_hexdigits (hhex c0 (by simp)) (hhex c1 (by simp)),
      pyIntHex2_hexdigits (hhex c2 (by simp)) (hhex c3 (by simp)),
      pyIntHex2_hexdigits (hhex c4 (by simp)) (hhex c5 (by simp))]
  · have hpair : ∀ a b : Char, a ∈ hexDigits → b ∈ hexDigits →
        fmt02x (16 * hexVal a + hexVal b) =
          [Char.toLower a, Char.toLower b] := by
      intro a b ha hb
      have ga := hex_char_facts a ha
      have gb := hex_char_facts b hb
      rw [fmt02x_eq (by omega) (by omega)]
      have e1 : (16 * hexVal a + hexVal b).toNat / 16 = (hexVal a).toNat := by
        omega
      have e2 : (16 * hexVal a + hexVal b).toNat % 16 = (hexVal b).toNat := by
        omega
      rw [e1, e2, ga.2.2.1, gb.2.2.1]
    unfold rgb_to_hex pyLower
    rw [hpair c0 c1 (hm c0 (by simp)) (hm c1 (by simp)),
      hpair c2 c3 (hm c2 (by simp)) (hm c3 (by simp)),
      hpair c4 c5 (hm c4 (by simp)) (hm c5 (by simp))]
    simp

/-- Witness for C4 at the mixed-case input `"#AbCdEf"`. -/
theorem hex_rgb_roundtrip_witness :
    ∃ r g b,
      hex_to_rgb ⟨'#' :: ['A', 'b', 'C', 'd', 'E', 'f']⟩ = some (r, g, b) ∧
      rgb_to_hex r g b = pyLower ⟨'#' :: ['A', 'b', 'C', 'd', 'E', 'f']⟩ :=
  hex_rgb_roundtrip ['A', 'b', 'C', 'd', 'E', 'f'] (by decide) (by decide)

/-- C1 (amended): for h in [0,360), s in [0,100] and l in [0,100],
`classifyEmotion` populates the lightness class/response exactly when
l < 100 (the 7 bands span [0,100), so l = 100 matches no band) and the
saturation class/response exactly when s < 100 (the 5 bands span [0,100)),
in each case from a table entry whose half-open band contains the input;
hue_emotion/arousal/valence are populated exactly when s ≥ 5. -/
theorem classify_emotion_population (h s l : ℚ)
    (hh : 0 ≤ h ∧ h < 360) (hs : 0 ≤ s ∧ s ≤ 100) (hl : 0 ≤ l ∧ l ≤ 100) :
    ((l < 100 → ∃ name lo hi desc,
        (name, (lo, hi, desc)) ∈ LIGHTNESS_RESPONSE ∧ lo ≤ l ∧ l < hi ∧
        (classify_emotion h s l).lightness_class = some name ∧
        (classify_emotion h s l).lightness_response = some desc) ∧
      (l = 100 → (classify_emotion h s l).lightness_class = none ∧
        (classify_emotion h s l).lightness_response = none)) ∧
    ((s < 100 → ∃ name lo hi desc,
        (name, (lo, hi, desc)) ∈ SATURATION_RESPONSE ∧ lo ≤ s ∧ s < hi ∧
        (classify_emotion h s l).saturation_class = some name ∧
        (classify_emotion h s l).saturation_response = some desc) ∧
      (s = 100 → (classify_emotion h s l).saturation_class = none ∧
        (classify_emotion h s l).saturation_response = none)) ∧
    ((5 ≤ s → ∃ lo hi emo ar va,
        ((lo, hi), (emo, ar, va)) ∈ EMOTIONAL_MAP ∧ lo ≤ h ∧ h < hi ∧
        (classify_emotion h s l).hue_emotion = some emo ∧
        (classify_emotion h s l).arousal = some ar ∧
        (classify_emotion h s l).valence = some va) ∧
      (s < 5 → (classify_emotion h s l).hue_emotion = none ∧
        (classify_emotion h s l).arousal = none ∧
        (classify_emotion h s l).valence = none)) := by
  refine ⟨⟨?_, ?_⟩, ⟨?_, ?_⟩, ⟨?_, ?_⟩⟩
  · intro hl100
    have hsome : ∃ r, bandLookup l LIGHTNESS_RESPONSE = some r := by
      simp only [LIGHTNESS_RESPONSE, bandLookup]
      split_ifs with h1 h2 h3 h4 h5 h6 h7
      · exact ⟨_, rfl⟩
      · exact ⟨_, rfl⟩
      · exact ⟨_, rfl⟩
      · exact ⟨_, rfl⟩
      · exact ⟨_, rfl⟩
      · exact ⟨_, rfl⟩
      · exact ⟨_, rfl⟩
      · exfalso
        push_neg at h1 h2 h3 h4 h5 h6 h7
        have a1 := h1 hl.1
        have a2 := h2 a1
        have a3 := h3 a2
        have a4 := h4 a3
        have a5 := h5 a4
        have a6 := h6 a5
        have a7 := h7 a6
        linarith
    obtain ⟨r, hr⟩ := hsome
    obtain ⟨name, lo, hi, desc, hmem, h1, h2, h3⟩ := bandLookup_some hr
    refine ⟨name, lo, hi, desc, hmem, h1, h2, ?_, ?_⟩ <;>
      simp [classify_emotion, hr, h3]
  · intro hl100
    subst hl100
    have hr : bandLookup (100 : ℚ) LIGHTNESS_RESPONSE = none := by decide
    constructor <;> simp [classify_emotion, hr]
  · intro hs100
    have hsome : ∃ r, bandLookup s SATURATION_RESPONSE = some r := by
      simp only [SATURATION_RESPONSE, bandLookup]
      split_ifs with h1 h2 h3 h4 h5
      · exact ⟨_, rfl⟩
      · exact ⟨_, rfl⟩
      · exact ⟨_, rfl⟩
      · exact ⟨_, rfl⟩
      · exact ⟨_, rfl⟩
      · exfalso
        push_neg at h1 h2 h3 h4 h5
        have a1 := h1 hs.1
        have a2 := h2 a1
        have a3 := h3 a2
        have a4 := h4 a3
        have a5 := h5 a4
        linarith
    obtain ⟨r, hr⟩ := hsome
    obtain ⟨name, lo, hi, desc, hmem, h1, h2, h3⟩ := bandLookup_some hr
    refine ⟨name, lo, hi, desc, hmem, h1, h2, ?_, ?_⟩ <;>
      simp [classify_emotion, hr, h3]
  · intro hs100
    subst hs100
    have hr : bandLookup (100 : ℚ) SATURATION_RESPONSE = none := by decide
    constructor <;> simp [classify_emotion, hr]
  · intro hs5
    have hsome : ∃ r, hueLookup h EMOTIONAL_MAP = some r := by
      simp only [EMOTIONAL_MAP, hueLookup]
      split_ifs with h1 h2 h3 h4 h5 h6 h7 h8
      · exact ⟨_, rfl⟩
      · exact ⟨_, rfl⟩
      · exact ⟨_, rfl⟩
      · exact ⟨_, rfl⟩
      · exact ⟨_, rfl⟩
      · exact ⟨_, rfl⟩
      · exact ⟨_, rfl⟩
      · exact ⟨_, rfl⟩
      · exfalso
        push_neg at h1 h2 h3 h4 h5 h6 h7 h8
        have a1 := h1 hh.1
        have a2 := h2 a1
        have a3 := h3 a2
        have a4 := h4 a3
        have a5 := h5 a4
        have a6 := h6 a5
        have a7 := h7 a6
        have a8 := h8 a7
        linarith
    obtain ⟨r, hr⟩ := hsome
    obtain ⟨lo, hi, hmem, h1, h2⟩ := hueLookup_some hr
    obtain ⟨emo, ar, va⟩ := r
    refine ⟨lo, hi, emo, ar, va, hmem, h1, h2, ?_, ?_, ?_⟩ <;>
      simp [classify_emotion, hr, if_pos hs5]
  · intro hs5
    have hcond : ¬(5 ≤ s) := not_le.mpr hs5
    refine ⟨?_, ?_, ?_⟩ <;> simp [classify_emotion, hcond]

/-- C1 counterexample: at h = 0, s = 100, l = 100 (inside the claim's stated
domain h ∈ [0,360), s ∈ [0,100], l ∈ [0,100]) `classifyEmotion` leaves both
the lightness and the saturation class/response unpopulated, since the band
tables only span [0,100); the claim asserts they are always populated. -/
theorem classify_emotion_boundary_cex :
    (classify_emotion 0 100 100).lightness_class = none ∧
    (classify_emotion 0 100 100).lightness_response = none ∧
    (classify_emotion 0 100 100).saturation_class = none ∧
    (classify_emotion 0 100 100).saturation_response = none := by decide

/-- Witness for C1's amended theorem at h = 10, s = 50, l = 50. -/
theorem classify_emotion_population_witness :
    (classify_emotion 10 50 50).lightness_class.isSome = true ∧
    (classify_emotion 10 50 50).saturation_class.isSome = true ∧
    (classify_emotion 10 50 50).hue_emotion.isSome = true := by
  obtain ⟨⟨hli, _⟩, ⟨hsa, _⟩, ⟨hhu, _⟩⟩ :=
    classify_emotion_population 10 50 50 (by norm_num) (by norm_num)
      (by norm_num)
  obtain ⟨_, _, _, _, _, _, _, hc1, _⟩ := hli (by norm_num)
  obtain ⟨_, _, _, _, _, _, _, hc2, _⟩ := hsa (by norm_num)
  obtain ⟨_, _, _, _, _, _, _, _, hc3, _, _⟩ := hhu (by norm_num)
  exact ⟨by rw [hc1]; rfl, by rw [hc2]; rfl, by rw [hc3]; rfl⟩

/-- C2 (amended): for every base hex that parses to an RGB color and every
kind, each suggestion of `computeHarmonySuggestions` reports a rotation that
is congruent mod 360 to the difference between the suggestion hue and the
base hue and lies in the CLOSED interval [−180, 180]: the normalization
keeps a raw difference of exactly −180 (reached whenever the base hue is
≥ 180 and the rotation is the +180 complement) instead of mapping it to
+180, so the reported range is [−180, 180], not (−180, 180].  The
channel-range hypothesis scopes the statement to genuine RGB colors, the
only inputs on which the Python code is exception-free. -/
theorem harmony_suggestions_rotation (base : String) (rgb : ℤ × ℤ × ℤ)
    (kind : String) (hp : hex_to_rgb base = some rgb) (hr : rgbInRange rgb) :
    ∀ sug ∈ (compute_harmony_suggestions base kind).suggestionList,
      (-180 ≤ sug.rotation ∧ sug.rotation ≤ 180) ∧
      ∃ k : ℤ, sug.rotation =
        sug.hsl.1 - (rgb_to_hsl rgb.1 rgb.2.1 rgb.2.2).1 + 360 * k := by
  intro sug hsug
  unfold compute_harmony_suggestions at hsug
  rw [hp] at hsug
  simp only [SuggestResult.suggestionList, List.mem_map] at hsug
  obtain ⟨hsl, hmem, rfl⟩ := hsug
  obtain ⟨⟨hh0, hh1⟩, hs2, hl2⟩ := generate_mem_bounds hmem
  obtain ⟨hb0, hb1⟩ := rgb_to_hsl_hue_bounds rgb.1 rgb.2.1 rgb.2.2
  dsimp only
  split_ifs with h1 h2
  · exact ⟨⟨by linarith, by linarith⟩, -1, by push_cast; ring⟩
  · exact ⟨⟨by linarith, by linarith⟩, 1, by push_cast; ring⟩
  · exact ⟨⟨by linarith, by linarith⟩, 0, by push_cast; ring⟩

/-- C2 counterexample: for base `"#00ffff"` (hue exactly 180) and kind
complementary, the single suggestion's reported rotation is −180, which is
outside the half-open interval (−180, 180] the claim specifies. -/
theorem harmony_suggestion_neg180_cex :
    ((compute_harmony_suggestions "#00ffff" "complementary").suggestionList.map
      Suggestion.rotation) = [-180] ∧
    (-180 : ℚ) ∉ Set.Ioc (-180 : ℚ) 180 := by
  have e1 : hex_to_rgb "#00ffff" = some (0, 255, 255) := by decide
  have e2 : rgb_to_hsl 0 255 255 = (180, 100, 50) := by
    norm_num [rgb_to_hsl, rgb_to_hls, qmod, max_def, min_def]
  have e3 : generate_harmony_colors 180 100 50 "complementary" =
      [(0, 100, 50)] := by
    norm_num [generate_harmony_colors, rotate_hue, qmod]
    decide
  constructor
  · unfold compute_harmony_suggestions
    rw [e1]
    dsimp only
    rw [e2]
    dsimp only
    rw [e3]
    simp only [SuggestResult.suggestionList, List.map_map, List.map_cons,
      List.map_nil, Function.comp]
    norm_num
  · simp [Set.mem_Ioc]

/-- Witness for C2's amended theorem at base `"#00ffff"`, kind
complementary. -/
theorem harmony_suggestions_rotation_witness :
    rgbInRange (0, 255, 255) ∧
    ∀ sug ∈ (compute_harmony_suggestions "#00ffff"
        "complementary").suggestionList,
      (-180 ≤ sug.rotation ∧ sug.rotation ≤ 180) ∧
      ∃ k : ℤ, sug.rotation = sug.hsl.1 - (rgb_to_hsl 0 255 255).1 + 360 * k :=
  ⟨by decide,
   harmony_suggestions_rotation "#00ffff" (0, 255, 255) "complementary"
     (by decide) (by decide)⟩

/-- C7: `analyzeHarmony` dedupes its input hues by rounding to the nearest
integer degree; for fewer than 2 distinct rounded hues it returns exactly
`{type: monochromatic}`; otherwise every relationship entry is an unordered
pair of distinct rounded hues whose recorded difference is their minimal
circular difference (always ≤ 180) classified into the first matching band,
every pair whose difference falls in a band is reported, and pairs outside
all bands appear in no relationship entry. -/
theorem analyze_harmony_spec (hues : List ℚ)
    (hb : ∀ h ∈ hues, 0 ≤ h ∧ h < 360) :
    ((roundedHues hues).length < 2 → analyze_harmony hues = .mono) ∧
    (2 ≤ (roundedHues hues).length →
      ∃ rels,
        analyze_harmony hues = .analysis (roundedHues hues).length
          (roundedHues hues)
          (listMax (roundedHues hues) - listMin (roundedHues hues)) rels ∧
        (∀ r ∈ rels, r.h1 ∈ roundedHues hues ∧ r.h2 ∈ roundedHues hues ∧
          r.h1 < r.h2 ∧ r.diff = minCircDist r.h1 r.h2 ∧ r.diff ≤ 180 ∧
          bandOf r.diff = some r.kind) ∧
        (∀ a b, a ∈ roundedHues hues → b ∈ roundedHues hues → a < b →
          (∀ k, bandOf (minCircDist a b) = some k →
            (⟨k, a, b, minCircDist a b⟩ : Rel) ∈ rels) ∧
          (bandOf (minCircDist a b) = none →
            ∀ r ∈ rels, ¬(r.h1 = a ∧ r.h2 = b)))) := by
  have hbound : ∀ x ∈ roundedHues hues, 0 ≤ x ∧ x ≤ 360 := by
    intro x hx
    rw [roundedHues, mem_pySortedSet, List.mem_map] at hx
    obtain ⟨q, hq, rfl⟩ := hx
    exact pyRound_bounds (hb q hq).1 (hb q hq).2
  have hpw : (roundedHues hues).Pairwise (· < ·) :=
    pySortedSet_pairwise (hues.map pyRound)
  have hsound : ∀ r ∈ relLoop (roundedHues hues),
      r.h1 ∈ roundedHues hues ∧ r.h2 ∈ roundedHues hues ∧
      r.h1 < r.h2 ∧ r.diff = minCircDist r.h1 r.h2 ∧ r.diff ≤ 180 ∧
      bandOf r.diff = some r.kind := by
    intro r hr
    rw [relLoop_eq_filterMap, List.mem_filterMap] at hr
    obtain ⟨⟨a, b⟩, hpair, hrel⟩ := hr
    obtain ⟨ha, hbm, hab⟩ := (mem_pairList hpw).mp hpair
    obtain ⟨ha1, ha2⟩ := hbound a ha
    obtain ⟨hb1, hb2⟩ := hbound b hbm
    rw [pairRel_eq_bandOf ha1 ha2 hb1 hb2, Option.map_eq_some'] at hrel
    obtain ⟨k, hk, hfk⟩ := hrel
    subst hfk
    exact ⟨ha, hbm, hab, rfl, minCircDist_le_180 ha1 ha2 hb1 hb2, hk⟩
  constructor
  · intro hlt
    simp only [analyze_harmony]
    exact if_pos hlt
  · intro hge
    refine ⟨relLoop (roundedHues hues), ?_, hsound, ?_⟩
    · simp only [analyze_harmony]
      exact if_neg (not_lt.mpr hge)
    · intro a b ha hbm hab
      obtain ⟨ha1, ha2⟩ := hbound a ha
      obtain ⟨hb1, hb2⟩ := hbound b hbm
      constructor
      · intro k hk
        rw [relLoop_eq_filterMap, List.mem_filterMap]
        refine ⟨(a, b), (mem_pairList hpw).mpr ⟨ha, hbm, hab⟩, ?_⟩
        rw [pairRel_eq_bandOf ha1 ha2 hb1 hb2, hk]
        rfl
      · rintro hnone r hr ⟨he1, he2⟩
        obtain ⟨_, _, _, hdiff, _, hband⟩ := hsound r hr
        rw [hdiff, he1, he2, hnone] at hband
        exact Option.noConfusion hband

/-- Witness for C7 at the single-hue input `[5]` (monochromatic case). -/
theorem analyze_harmony_spec_witness : analyze_harmony [(5 : ℚ)] = .mono :=
  (analyze_harmony_spec [5] (by decide)).1 (by decide)

/-- C6: `contrastRatio` is at least 1 and symmetric on in-range RGB triples,
equals exactly 1 on identical colors, and is within 0.1 of 21.0 for pure
white against pure black. -/
theorem contrast_ratio_props :
    (∀ a b : ℤ × ℤ × ℤ, rgbInRange a → rgbInRange b →
      1 ≤ contrast_ratio a b) ∧
    (∀ a b : ℤ × ℤ × ℤ, contrast_ratio a b = contrast_ratio b a) ∧
    (∀ c : ℤ × ℤ × ℤ, rgbInRange c → contrast_ratio c c = 1) ∧
    |contrast_ratio (255, 255, 255) (0, 0, 0) - 21| ≤ 0.1 := by
  have hlum : ∀ c : ℤ × ℤ × ℤ, rgbInRange c →
      0 ≤ relative_luminance c.1 c.2.1 c.2.2 := fun c hc =>
    relative_luminance_nonneg _ _ _ hc.1 hc.2.2.1 hc.2.2.2.2.1
  refine ⟨?_, ?_, ?_, ?_⟩
  · intro a b ha hb
    have h1 := hlum a ha
    have h2 := hlum b hb
    simp only [contrast_ratio]
    rw [one_le_div (by positivity)]
    have := min_le_max (a := relative_luminance a.1 a.2.1 a.2.2)
      (b := relative_luminance b.1 b.2.1 b.2.2)
    linarith
  · intro a b
    simp only [contrast_ratio]
    rw [max_comm, min_comm]
  · intro c hc
    have h1 := hlum c hc
    simp only [contrast_ratio]
    rw [max_self, min_self]
    exact div_self (by linarith)
  · show |(max (relative_luminance 255 255 255) (relative_luminance 0 0 0) +
        0.05) / (min (relative_luminance 255 255 255)
        (relative_luminance 0 0 0) + 0.05) - 21| ≤ 0.1
    rw [relative_luminance_white, relative_luminance_black,
      max_eq_left (by norm_num), min_eq_right (by norm_num)]
    rw [abs_le]
    constructor <;> norm_num

/-- Witness for C6 at white and black. -/
theorem contrast_ratio_props_witness :
    rgbInRange (255, 255, 255) ∧ rgbInRange (0, 0, 0) ∧
    1 ≤ contrast_ratio (255, 255, 255) (0, 0, 0) ∧
    contrast_ratio (0, 0, 0) (0, 0, 0) = 1 :=
  ⟨by decide, by decide,
   contrast_ratio_props.1 _ _ (by decide) (by decide),
   contrast_ratio_props.2.2.1 _ (by decide)⟩

/-- C5: `deltaE76` is nonnegative, symmetric, zero iff the inputs are
identical, satisfies the triangle inequality, and the Lab values of black
`(0,0,0)` and white `(255,255,255)` are more than 90 apart. -/
theorem delta_e_76_metric :
    (∀ x y : ℝ × ℝ × ℝ, 0 ≤ delta_e_76 x y) ∧
    (∀ x y : ℝ × ℝ × ℝ, delta_e_76 x y = delta_e_76 y x) ∧
    (∀ x y : ℝ × ℝ × ℝ, delta_e_76 x y = 0 ↔ x = y) ∧
    (∀ x y z : ℝ × ℝ × ℝ,
      delta_e_76 x z ≤ delta_e_76 x y + delta_e_76 y z) ∧
    90 < delta_e_76 (rgb_to_lab 0 0 0) (rgb_to_lab 255 255 255) := by
  refine ⟨?_, ?_, ?_, ?_, ?_⟩
  · intro x y
    rw [delta_e_76_eq_dist]
    exact dist_nonneg
  · intro x y
    rw [delta_e_76_eq_dist, delta_e_76_eq_dist]
    exact dist_comm _ _
  · intro x y
    rw [delta_e_76_eq_dist, dist_eq_zero]
    exact ⟨fun h => toE3_injective h, fun h => h ▸ rfl⟩
  · intro x y z
    rw [delta_e_76_eq_dist, delta_e_76_eq_dist, delta_e_76_eq_dist]
    exact dist_triangle _ _ _
  · rw [rgb_to_lab_black]
    set w := rgb_to_lab 255 255 255 with hw
    have hL : 100 ≤ w.1 := rgb_to_lab_white_L
    have h1 : delta_e_76 (0, 0, 0) w =
        Real.sqrt (w.1 ^ 2 + w.2.1 ^ 2 + w.2.2 ^ 2) := by
      unfold delta_e_76
      congr 1
      ring
    rw [h1]
    have h2 : (w.1 : ℝ) ^ 2 ≤ w.1 ^ 2 + w.2.1 ^ 2 + w.2.2 ^ 2 := by
      nlinarith [sq_nonneg w.2.1, sq_nonneg w.2.2]
    have h3 : Real.sqrt (w.1 ^ 2) ≤
        Real.sqrt (w.1 ^ 2 + w.2.1 ^ 2 + w.2.2 ^ 2) := Real.sqrt_le_sqrt h2
    rw [Real.sqrt_sq_eq_abs] at h3
    have h4 : (100 : ℝ) ≤ |w.1| := le_trans hL (le_abs_self _)
    linarith

/-- C8: for every h, s, l, `generateHarmonyColors` applies exactly the fixed
hue rotations per kind (complementary +180; analogous −30,+30; triadic
+120,+240; split +150,+210; tetradic +90,+180,+270), each wrapped modulo
360 with s and l unchanged, and `"all"` is the concatenation of the
individual kinds in the listed order without deduplication: its length is
the sum of the individual lengths (10 entries), with the +180 rotation
appearing exactly twice. -/
theorem generate_harmony_colors_tables :
    ∀ h s l : ℚ,
      generate_harmony_colors h s l "complementary" =
        [(qmod (h + 180) 360, s, l)] ∧
      generate_harmony_colors h s l "analogous" =
        [(qmod (h + -30) 360, s, l), (qmod (h + 30) 360, s, l)] ∧
      generate_harmony_colors h s l "triadic" =
        [(qmod (h + 120) 360, s, l), (qmod (h + 240) 360, s, l)] ∧
      generate_harmony_colors h s l "split" =
        [(qmod (h + 150) 360, s, l), (qmod (h + 210) 360, s, l)] ∧
      generate_harmony_colors h s l "tetradic" =
        [(qmod (h + 90) 360, s, l), (qmod (h + 180) 360, s, l),
         (qmod (h + 270) 360, s, l)] ∧
      generate_harmony_colors h s l "all" =
        generate_harmony_colors h s l "complementary" ++
        generate_harmony_colors h s l "analogous" ++
        generate_harmony_colors h s l "triadic" ++
        generate_harmony_colors h s l "split" ++
        generate_harmony_colors h s l "tetradic" ∧
      (generate_harmony_colors h s l "all").length =
        (generate_harmony_colors h s l "complementary").length +
        (generate_harmony_colors h s l "analogous").length +
        (generate_harmony_colors h s l "triadic").length +
        (generate_harmony_colors h s l "split").length +
        (generate_harmony_colors h s l "tetradic").length ∧
      (generate_harmony_colors h s l "all").length = 10 ∧
      (generate_harmony_colors h s l "all").count (qmod (h + 180) 360, s, l)
        = 2 := by
  intro h s l
  have hne : ∀ d : ℚ, |(180 : ℚ) - d| < 360 → (180 : ℚ) ≠ d →
      qmod (h + 180) 360 ≠ qmod (h + d) 360 := fun d h1 h2 =>
    qmod_add_right_inj h1 h2 h
  have e1 := hne (-30) (by norm_num) (by norm_num)
  have e2 := hne 30 (by norm_num) (by norm_num)
  have e3 := hne 120 (by norm_num) (by norm_num)
  have e4 := hne 240 (by norm_num) (by norm_num)
  have e5 := hne 150 (by norm_num) (by norm_num)
  have e6 := hne 210 (by norm_num) (by norm_num)
  have e7 := hne 90 (by norm_num) (by norm_num)
  have e8 := hne 270 (by norm_num) (by norm_num)
  refine ⟨?_, ?_, ?_, ?_, ?_, ?_, ?_, ?_, ?_⟩ <;>
    simp [generate_harmony_colors, rotate_hue, List.count_cons, Prod.ext_iff,
      e1, e2, e3, e4, e5, e6, e7, e8]

/-- C10: for every h, s, l and every kind outside
{complementary, analogous, triadic, split, tetradic, all},
`generateHarmonyColors` returns the empty list, and
`computeHarmonySuggestions` on a base hex that parses returns a non-error
result with an empty suggestions list and the 5 lightness variations. -/
theorem unknown_kind_yields_empty :
    ∀ kind : String,
      kind ∉ (["complementary", "analogous", "triadic", "split", "tetradic",
        "all"] : List String) →
      (∀ h s l : ℚ, generate_harmony_colors h s l kind = []) ∧
      (∀ base : String, ∀ rgb : ℤ × ℤ × ℤ, hex_to_rgb base = some rgb →
        (compute_harmony_suggestions base kind).isErr = false ∧
        (compute_harmony_suggestions base kind).suggestionList = [] ∧
        (compute_harmony_suggestions base kind).variationList.length = 5) := by
  intro kind hk
  simp only [List.mem_cons, List.not_mem_nil, or_false, not_or] at hk
  obtain ⟨h1, h2, h3, h4, h5, h6⟩ := hk
  have hg : ∀ h s l : ℚ, generate_harmony_colors h s l kind = [] := by
    intro h s l
    simp [generate_harmony_colors, h1, h2, h3, h4, h5, h6]
  refine ⟨hg, ?_⟩
  intro base rgb hbase
  unfold compute_harmony_suggestions
  rw [hbase]
  simp [SuggestResult.isErr, SuggestResult.suggestionList,
    SuggestResult.variationList, hg]

/-- Witness for C10 at base `"#ff0000"` and kind `"cubic"`. -/
theorem unknown_kind_yields_empty_witness :
    generate_harmony_colors 10 20 30 "cubic" = [] ∧
    (compute_harmony_suggestions "#ff0000" "cubic").isErr = false ∧
    (compute_harmony_suggestions "#ff0000" "cubic").suggestionList = [] ∧
    (compute_harmony_suggestions "#ff0000" "cubic").variationList.length = 5 :=
  ⟨(unknown_kind_yields_empty "cubic" (by decide)).1 10 20 30,
   (unknown_kind_yields_empty "cubic" (by decide)).2 "#ff0000" (255, 0, 0)
     (by decide)⟩

/-- C9: `computeReplacementImpact` returns the error dict
`{"error": "Invalid color"}` — which carries none of the other result
keys — whenever either hex fails to parse. -/
theorem replacement_impact_invalid_error :
    ∀ (theme : Theme) (old_color new_color : String),
      hex_to_rgb old_color = none ∨ hex_to_rgb new_color = none →
      compute_replacement_impact theme old_color new_color =
        ImpactResult.err "Invalid color" := by
  intro theme oc nc h
  unfold compute_replacement_impact
  cases h1 : hex_to_rgb oc with
  | none => rfl
  | some o =>
      cases h2 : hex_to_rgb nc with
      | none => rfl
      | some n =>
          rcases h with h | h
          · rw [h1] at h; exact absurd h (by simp)
          · rw [h2] at h; exact absurd h (by simp)

/-- Witness for C9 at an empty theme, invalid old `"zz"`, valid new
`"#ffffff"`. -/
theorem replacement_impact_invalid_error_witness :
    compute_replacement_impact ⟨[], [], []⟩ "zz" "#ffffff" =
      ImpactResult.err "Invalid color" :=
  replacement_impact_invalid_error ⟨[], [], []⟩ "zz" "#ffffff"
    (Or.inl (by decide))

end Albers
